import Mathlib

/-!
Verification development for the significant-locations core of the
LAMP-cortex repository (`cortex/primary/significant_locations.py`).

The Python source is shallowly embedded as follows.

* Timestamps, durations and cluster labels are exact integers (`ℤ`), as in
  the source (epoch milliseconds, integer labels, `-1` = noise).
* Coordinates and proportions handled by purely arithmetic/bookkeeping code
  (`remove_clusters`, the mode-path guards) are modelled as exact rationals
  (`ℚ`); Python floats are rational values, and none of the claims about
  this code depend on rounding.
* The planar-approximation distance `euclid` genuinely computes
  `110.25 * sqrt(dlat^2 + (dlng*cos(lat0))^2)` (its own comment: degrees
  to kilometers), so it is embedded over `ℝ` with `Real.sqrt`/`Real.cos`.
* The great-circle `distance` function (haversine, used only by
  `remove_clusters`) is transcendental and enters the claims only through
  comparisons `distance c1 c2 < MAX_DIST`; `remove_clusters` is therefore
  parameterised by the distance function `dist`, and theorems about it
  quantify over `dist`.
* The external collaborators (attachment store, GPS source) are modelled as
  `Except`-valued oracles; the library clustering primitives (DBSCAN per
  chunk, the KMeans fit of the extraction phase), which the spec treats as
  external, are abstracted as function parameters (`chunkStep`, `extract`)
  of the control-flow skeleton `kmeansPath`, which mirrors the structure of
  `_significant_locations_kmeans` (lines 121-232): bare-except defaulting of
  the attachment read, watermark test, incremental fetch, the pandas
  KeyError raised at line 135 when that fetch is empty (the dataframe it
  builds has no timestamp column; the line-136 empty-frame return guard is
  dead code, represented but unreachable, because duplicate-timestamp
  removal keeps the first row of a nonempty frame), 30000-row chunking, the
  single fallible state write after the chunk loop, and the second window
  fetch.  Exceptions are values of `PyError`: either an external
  collaborator failure or the internal KeyError.  The list of states
  successfully persisted to the attachment store is returned alongside the
  result so that persistence claims can be stated.
-/

namespace SigLoc

/-- One row of the dataframe handed to `_location_duration`: a `timestamp`
column and the assigned `cluster` label column. -/
structure Reading where
  timestamp : ℤ
  cluster : ℤ
  deriving DecidableEq

instance : Inhabited Reading := ⟨⟨0, 0⟩⟩

/-- The extended boolean membership array `np.r_[False, df.cluster == cluster, False]`
built by `_location_duration` (line 107). -/
def extList (bs : List Bool) : List Bool := false :: bs ++ [false]

/-- The run-boundary indices `np.flatnonzero(arr_ext[:-1] != arr_ext[1:])`
(line 108): every index `k` of the extended array whose value differs from
its successor. -/
def boundaries (bs : List Bool) : List ℕ :=
  (List.range (bs.length + 1)).filter
    (fun k => (extList bs).getD k false != (extList bs).getD (k + 1) false)

/-- The pairing `list(zip(idx[:-1:2], idx[1::2] - 1))` (line 109): boundary
indices taken two at a time, one subtracted from the second of each pair. -/
def pairUp : List ℕ → List (ℕ × ℕ)
  | a :: b :: rest => (a, b - 1) :: pairUp rest
  | _ => []

/-- `_location_duration(df, cluster)` (lines 105-119): reverse the frame,
find the runs of rows labelled `cluster`, skip zero-width runs
(`tup[0] == tup[1]`), and sum `timestamp[tup[1]] - timestamp[tup[0]]` over
the remaining runs. -/
def location_duration (df : List Reading) (cluster : ℤ) : ℤ :=
  (((pairUp (boundaries (df.reverse.map (fun r => r.cluster == cluster)))).filter
      (fun p => p.1 != p.2)).map
    (fun p => (df.reverse.getD p.2 default).timestamp
      - (df.reverse.getD p.1 default).timestamp)).sum

/-- A significant-location record as consumed by `remove_clusters`: the
fields the merge loop reads or writes. -/
structure Cluster where
  latitude : ℚ
  longitude : ℚ
  proportion : ℚ
  duration : ℤ
  rank : ℕ
  deriving DecidableEq

instance : Inhabited Cluster := ⟨⟨0, 0, 0, 0, 0⟩⟩

/-- In-place update of the element at one index of a list, as in Python
`clusters[i]['field'] = ...`; indices past the end leave the list unchanged. -/
def listModify {α : Type*} (f : α → α) : ℕ → List α → List α
  | _, [] => []
  | 0, c :: cs => f c :: cs
  | n + 1, c :: cs => c :: listModify f n cs

/-- One inner-loop iteration of `remove_clusters` (lines 90-96): for inner
index `j`, if the (great-circle) distance from the outer cluster's
coordinates `big` to cluster `j` is under `MAX_DIST`, add `j`'s proportion
and duration into cluster `i` and zero `j`'s proportion. -/
def innerStep (dist : ℚ × ℚ → ℚ × ℚ → ℚ) (MAX_DIST : ℚ) (big : ℚ × ℚ) (i : ℕ)
    (cs : List Cluster) (j : ℕ) : List Cluster :=
  match cs.get? j with
  | none => cs
  | some cj =>
    if dist big (cj.latitude, cj.longitude) < MAX_DIST then
      listModify (fun c => { c with proportion := 0 }) j
        (listModify (fun c =>
          { c with proportion := c.proportion + cj.proportion,
                   duration := c.duration + cj.duration }) i cs)
    else cs

/-- One outer-loop iteration of `remove_clusters` (lines 86-98): if cluster
`i`'s proportion is positive at entry, run the inner loop over
`j = i+1 .. n-1` with `i`'s coordinates fixed. -/
def outerStep (dist : ℚ × ℚ → ℚ × ℚ → ℚ) (MAX_DIST : ℚ) (n : ℕ)
    (cs : List Cluster) (i : ℕ) : List Cluster :=
  match cs.get? i with
  | none => cs
  | some ci =>
    if ci.proportion > 0 then
      (List.range' (i + 1) (n - (i + 1))).foldl
        (innerStep dist MAX_DIST (ci.latitude, ci.longitude) i) cs
    else cs

/-- The final re-ranking loop of `remove_clusters` (lines 100-101):
`clusters[i]['rank'] = i` down the filtered list. -/
def reRank : ℕ → List Cluster → List Cluster
  | _, [] => []
  | i, c :: cs => { c with rank := i } :: reRank (i + 1) cs

/-- `remove_clusters(clusters, MAX_DIST)` (lines 77-102), parameterised by
the great-circle distance function `dist`: run the absorption double loop,
drop the clusters whose proportion ended at zero, and re-rank the survivors
in their surviving order. -/
def remove_clusters (dist : ℚ × ℚ → ℚ × ℚ → ℚ) (clusters : List Cluster)
    (MAX_DIST : ℚ) : List Cluster :=
  reRank 0
    (((List.range (clusters.length - 1)).foldl
        (outerStep dist MAX_DIST clusters.length) clusters).filter
      (fun c => c.proportion > 0))

/-- A persisted weighted summary point of the incremental reducer:
`dict(latitude=..., longitude=..., count=...)`. -/
structure SummaryPoint where
  latitude : ℝ
  longitude : ℝ
  count : ℕ

instance : Inhabited SummaryPoint := ⟨⟨0, 0, 0⟩⟩

/-- The planar approximation `euclid` (lines 55-58):
`110.25 * ((lat-lat0)^2 + ((lng-lng0)*cos(lat0))^2) ** 0.5`, with `lat0`,
`lng0` the coordinates of the second argument.  Per its own comment the
result is in kilometers (110.25 km per spherical degree); the radius
computation at line 224 multiplies it by 1000 to obtain meters. -/
noncomputable def euclid (g0 g1 : ℝ × ℝ) : ℝ :=
  110.25 * Real.sqrt ((g0.1 - g1.1) ^ 2 + ((g0.2 - g1.2) * Real.cos g1.1) ^ 2)

/-- `np.mean` over a list of reals (mean of the empty list is `0/0 = 0`
here; numpy would give NaN, and all uses in the claims are on nonempty
lists). -/
noncomputable def npMean (l : List ℝ) : ℝ := l.sum / l.length

/-- Accumulator loop of `np.argmin`: scan with the current best value and
its index, keeping the first index attaining the minimum (a later value
replaces the best only when strictly smaller). -/
noncomputable def argminAux : List ℝ → ℕ → ℝ × ℕ → ℝ × ℕ
  | [], _, best => best
  | x :: xs, i, best =>
    if x < best.1 then argminAux xs (i + 1) (x, i) else argminAux xs (i + 1) best

/-- `np.argmin` on a list of reals: the first index of the minimum value
(0 on the empty list, on which numpy raises; the source only calls it on
a nonempty list, line 164). -/
noncomputable def argmin : List ℝ → ℕ
  | [] => 0
  | x :: xs => (argminAux xs 1 (x, 0)).2

/-- `min_dist_index` (line 164): index of the summary point of `reduced`
nearest to centroid `c` by the planar approximation. -/
noncomputable def nearestIdx (reduced : List SummaryPoint) (c : ℝ × ℝ) : ℕ :=
  argmin (reduced.map (fun loc => euclid (loc.latitude, loc.longitude) c))

/-- Processing of one genuine (non-noise) DBSCAN cluster with member
latitudes `db_lats` and longitudes `db_longs` (lines 156-171): compute the
centroid; if no summary points exist, append it to `db_points`; otherwise
find the summary point of `reduced` (the start-of-chunk summary) nearest to
the centroid and, if `euclid(nearest, centroid) < 20`, increment that
point's count in `new_reduced_data` by the cluster size, else append the
centroid to `db_points`.  Returns the updated
`(new_reduced_data, db_points)`. -/
noncomputable def mergeClusterStep (reduced newReduced dbPoints : List SummaryPoint)
    (db_lats db_longs : List ℝ) : List SummaryPoint × List SummaryPoint :=
  if reduced.length = 0 then
    (newReduced, dbPoints ++ [⟨npMean db_lats, npMean db_longs, db_lats.length⟩])
  else if euclid
      ((reduced.getD (nearestIdx reduced (npMean db_lats, npMean db_longs)) default).latitude,
        (reduced.getD (nearestIdx reduced (npMean db_lats, npMean db_longs)) default).longitude)
      (npMean db_lats, npMean db_longs) < 20 then
    (listModify (fun p => { p with count := p.count + db_lats.length })
      (nearestIdx reduced (npMean db_lats, npMean db_longs)) newReduced,
      dbPoints)
  else
    (newReduced, dbPoints ++ [⟨npMean db_lats, npMean db_longs, db_lats.length⟩])

/-- One raw GPS row as returned by the GPS source. -/
structure GpsRow where
  timestamp : ℤ
  latitude : ℚ
  longitude : ℚ
  deriving DecidableEq

/-- The persisted reduction state
`{'end': watermark, 'data': summary points}`; `end'` models the dict key
`'end'` (`end` is a Lean keyword). -/
structure ReducedState where
  end' : ℤ
  data : List SummaryPoint

/-- Tail of `df[df['timestamp'] != df['timestamp'].shift()]`: keep a row
exactly when its timestamp differs from the previous original row's
timestamp (the comparison is always against the original predecessor, as
with pandas `shift`, not against the last kept row). -/
def dedupConsecAux : ℤ → List GpsRow → List GpsRow
  | _, [] => []
  | prev, y :: ys =>
    if y.timestamp = prev then dedupConsecAux y.timestamp ys
    else y :: dedupConsecAux y.timestamp ys

/-- Consecutive duplicate-timestamp removal
`df[df['timestamp'] != df['timestamp'].shift()]` (lines 135, 254); the
first row is always kept (`shift` yields NaN there). -/
def dedupConsec : List GpsRow → List GpsRow
  | [] => []
  | x :: xs => x :: dedupConsecAux x.timestamp xs

/-- The chunking `np.split(df, [30000*i ...])` of line 139 followed by the
skip of empty pieces (line 142): the nonempty successive pieces of at most
`n` rows. -/
def chunksOf (n : ℕ) : List GpsRow → List (List GpsRow)
  | [] => []
  | x :: xs => (x :: xs.take (n - 1)) :: chunksOf n (xs.drop (n - 1))
termination_by l => l.length
decreasing_by
  simp only [List.length_drop, List.length_cons]
  omega

/-- An exception escaping a density-path invocation: either one raised by
an external collaborator (the GPS source, or the attachment-store write),
or the internal pandas `KeyError` of line 135, raised when
`df[df.timestamp != df.timestamp.shift()]` subscripts the column-less
frame that `pd.DataFrame.from_dict` builds from an empty fetch. -/
inductive PyError (E : Type) : Type
  | ext : E → PyError E
  | keyError : PyError E
  deriving DecidableEq

/-- The extraction phase shared by both branches of
`_significant_locations_kmeans` (lines 180-232): fetch the raw window data
(`gps(**kwargs)`, start = `kwStart`); if empty, return the empty location
list; otherwise hand the (possibly updated) summary data and the window
rows to the abstracted expansion/elbow/KMeans/statistics pipeline
`extract`.  The accumulated attachment-store `writes` are passed through. -/
def finishPhase {E β : Type} (writes : List ReducedState) (data : List SummaryPoint)
    (gpsFetch : ℤ → Except E (List GpsRow))
    (extract : List SummaryPoint → List GpsRow → List β)
    (kwStart : ℤ) : List ReducedState × Except (PyError E) (List β) :=
  match gpsFetch kwStart with
  | .error e => (writes, .error (.ext e))
  | .ok w => if w.length = 0 then (writes, .ok []) else (writes, .ok (extract data w))

/-- The attachment read of lines 123-126: the `try` around `get_attachment`
has a bare `except`, so any failure (absence, malformed blob, or a store
error) is replaced by the default state with watermark 0 and no summary
points. -/
def readAttachment {E : Type} (getAtt : Except E ReducedState) : ReducedState :=
  match getAtt with
  | .error _ => ⟨0, []⟩
  | .ok s => s

/-- Control-flow skeleton of `_significant_locations_kmeans`
(lines 121-232).  `getAtt` is the attachment read of line 124,
`setAtt` the attachment-store write of line 177 (treated as atomic:
either it persists its argument and returns ok, or it fails, raises, and
persists nothing), `gpsFetch s` the GPS source fetch with start overridden
to `s`, `chunkStep` the per-chunk DBSCAN fold body (lines 140-175),
`extract` the extraction pipeline of lines 180-232, `reqEnd` the requested
window end.  Returns the list of states successfully persisted by
`set_attachment`, paired with the invocation's result.

When the watermark test passes but the incremental fetch returns zero
rows, line 135 raises `KeyError` subscripting the column-less empty frame,
so the invocation errors before the `return []` guard of line 136; the
guard itself is kept in the model (the branch after the nonempty test) but
is dead code, since removing consecutive duplicate timestamps always keeps
the first row of a nonempty frame. -/
def kmeansPath {E β : Type} (getAtt : Except E ReducedState)
    (setAtt : ReducedState → Except E Unit)
    (gpsFetch : ℤ → Except E (List GpsRow))
    (chunkStep : List SummaryPoint → List GpsRow → List SummaryPoint)
    (extract : List SummaryPoint → List GpsRow → List β)
    (kwStart reqEnd : ℤ) : List ReducedState × Except (PyError E) (List β) :=
  if (readAttachment getAtt).end' < reqEnd then
    match gpsFetch (readAttachment getAtt).end' with
    | .error e => ([], .error (.ext e))
    | .ok gpsNew =>
      if gpsNew.length = 0 then ([], .error .keyError)
      else if (dedupConsec gpsNew).length = 0 then ([], .ok [])
      else
        match setAtt ⟨reqEnd, (chunksOf 30000 (dedupConsec gpsNew)).foldl chunkStep
            (readAttachment getAtt).data⟩ with
        | .error e => ([], .error (.ext e))
        | .ok _ =>
          finishPhase
            [⟨reqEnd, (chunksOf 30000 (dedupConsec gpsNew)).foldl chunkStep
              (readAttachment getAtt).data⟩]
            ((chunksOf 30000 (dedupConsec gpsNew)).foldl chunkStep
              (readAttachment getAtt).data)
            gpsFetch extract kwStart
  else finishPhase [] (readAttachment getAtt).data gpsFetch extract kwStart

/-- The expanded weighted cloud of lines 181-183: each summary point's
coordinates repeated `count` times. -/
def expanded_data (pts : List SummaryPoint) : List (ℝ × ℝ) :=
  pts.flatMap (fun p => List.replicate p.count (p.latitude, p.longitude))

/-- `K_clusters = range(1, min(k_max, len(df)))` (line 187): the candidate
cluster counts fitted and scored by the elbow selection, one `KMeans` model
per element (lines 188-192). -/
def K_clusters (k_max : ℕ) (df : List (ℝ × ℝ)) : List ℕ :=
  List.range' 1 (min k_max df.length - 1)

/-- The `radius` entry of the mode extractor's output (lines 290-296),
given the window rows paired with their assigned cluster labels, the
unrounded bucket `center` as `(latitude, longitude)`, and the location
index `idx`: the value is computed (mean swapped-axis planar distance in
meters over the rows labelled `idx`) when the frame of rows with label
different from `idx` is nonempty, and absent otherwise. -/
noncomputable def mode_radius (rows : List (GpsRow × ℤ)) (center : ℚ × ℚ)
    (idx : ℤ) : Option ℝ :=
  if (rows.filter (fun r => r.2 != idx)).length ≠ 0 then
    some (npMean ((rows.filter (fun r => r.2 == idx)).map
      (fun r => euclid ((center.2 : ℝ), (center.1 : ℝ))
        ((r.1.longitude : ℝ), (r.1.latitude : ℝ)) * 1000)))
  else none

/-- Total proportion mass of a list of location records (the quantity the
merge-conservation property is about). -/
def propSum (l : List Cluster) : ℚ := (l.map Cluster.proportion).sum

/-- The coordinate pair of a location record; `remove_clusters` never
changes it, so it identifies a record across the merge. -/
def coordsOf (c : Cluster) : ℚ × ℚ := (c.latitude, c.longitude)

/-! General list helpers. -/

theorem getD_eq_getElem' {α : Type*} (l : List α) (n : ℕ) (d : α) (h : n < l.length) :
    l.getD n d = l[n] := by
  induction l generalizing n with
  | nil => simp at h
  | cons x xs ih =>
    cases n with
    | zero => rfl
    | succ m =>
      rw [List.getD_cons_succ, List.getElem_cons_succ]
      exact ih m (by simpa using h)

theorem getD_mem {α : Type*} {l : List α} {n : ℕ} (d : α) (h : n < l.length) :
    l.getD n d ∈ l := by
  rw [getD_eq_getElem' l n d h]
  exact List.getElem_mem h

theorem getD_of_ge {α : Type*} : ∀ (l : List α) (n : ℕ) (d : α), l.length ≤ n → l.getD n d = d
  | [], _, _, _ => rfl
  | x :: xs, 0, d, h => by simp at h
  | x :: xs, n + 1, d, h => by
    rw [List.getD_cons_succ]
    exact getD_of_ge xs n d (by simpa using h)

/-! Lemmas about the dwell-duration estimator (claim C1). -/

theorem boundaries_pairwise (bs : List Bool) : (boundaries bs).Pairwise (· < ·) :=
  (List.pairwise_lt_range _).filter _

theorem boundaries_le {bs : List Bool} {k : ℕ} (hk : k ∈ boundaries bs) :
    k ≤ bs.length := by
  have h1 := (List.mem_filter.mp hk).1
  have h2 := List.mem_range.mp h1
  omega

theorem pairUp_mem : ∀ (l : List ℕ), l.Pairwise (· < ·) →
    ∀ p ∈ pairUp l, ∃ a b, a ∈ l ∧ b ∈ l ∧ a < b ∧ p = (a, b - 1)
  | [], _, p, hp => by rw [show pairUp [] = [] from rfl] at hp; exact absurd hp (List.not_mem_nil p)
  | [x], _, p, hp => by rw [show pairUp [x] = [] from rfl] at hp; exact absurd hp (List.not_mem_nil p)
  | a :: b :: rest, hl, p, hp => by
    rw [show pairUp (a :: b :: rest) = (a, b - 1) :: pairUp rest from rfl] at hp
    rcases List.mem_cons.mp hp with hp | hp
    · exact ⟨a, b, List.mem_cons_self a _,
        List.mem_cons.mpr (Or.inr (List.mem_cons_self b _)),
        (List.pairwise_cons.mp hl).1 b (List.mem_cons_self b _), hp⟩
    · obtain ⟨x, y, hx, hy, hxy, hpe⟩ :=
        pairUp_mem rest (List.pairwise_cons.mp (List.pairwise_cons.mp hl).2).2 p hp
      exact ⟨x, y, by simp [hx], by simp [hy], hxy, hpe⟩

theorem extList_all_false {bs : List Bool} (h : ∀ x ∈ bs, x = false) :
    ∀ x ∈ extList bs, x = false := by
  intro x hx
  rcases List.mem_cons.mp hx with rfl | hx
  · rfl
  · rcases List.mem_append.mp hx with hx | hx
    · exact h x hx
    · simpa using hx

theorem getD_false {l : List Bool} (h : ∀ x ∈ l, x = false) (k : ℕ) :
    l.getD k false = false := by
  by_cases hk : k < l.length
  · rw [getD_eq_getElem' _ _ _ hk]
    exact h _ (List.getElem_mem hk)
  · exact getD_of_ge _ _ _ (by omega)

theorem boundaries_all_false {bs : List Bool} (h : ∀ x ∈ bs, x = false) :
    boundaries bs = [] := by
  unfold boundaries
  apply List.filter_eq_nil_iff.mpr
  intro k hk
  have hall := extList_all_false h
  rw [getD_false hall k, getD_false hall (k + 1)]
  simp

/-- C1 (amended): the dwell-duration estimator `_location_duration` returns a
non-negative total on every input whose timestamps are non-increasing down
the list (the orientation its reversal at line 106 expects from the GPS
source), and it returns exactly 0 whenever the target label never appears. -/
theorem C1_duration_nonneg (df : List Reading) (c : ℤ)
    (hdesc : df.Pairwise (fun a b => b.timestamp ≤ a.timestamp)) :
    0 ≤ location_duration df c ∧
      ((∀ r ∈ df, r.cluster ≠ c) → location_duration df c = 0) := by
  constructor
  · unfold location_duration
    apply List.sum_nonneg
    intro x hx
    rw [List.mem_map] at hx
    obtain ⟨p, hpmem, rfl⟩ := hx
    rw [List.mem_filter] at hpmem
    obtain ⟨hpair, hne⟩ := hpmem
    obtain ⟨a, b, ha, hb, hab, rfl⟩ :=
      pairUp_mem _ (boundaries_pairwise _) p hpair
    have hble : b ≤ df.reverse.length := by
      have := boundaries_le hb
      simpa using this
    have hb1 : 1 ≤ b := by omega
    have hlt2 : b - 1 < df.reverse.length := by omega
    have hane : a ≠ b - 1 := by simpa using hne
    have halt : a < b - 1 := by omega
    have halen : a < df.reverse.length := by omega
    rw [getD_eq_getElem' _ _ _ hlt2, getD_eq_getElem' _ _ _ halen]
    have hmono := List.pairwise_iff_getElem.mp
      (List.pairwise_reverse.mpr hdesc) a (b - 1) halen hlt2 halt
    omega
  · intro hnone
    have hb : boundaries (df.reverse.map (fun r => r.cluster == c)) = [] := by
      apply boundaries_all_false
      intro x hx
      rw [List.mem_map] at hx
      obtain ⟨r, hr, rfl⟩ := hx
      have : r.cluster ≠ c := hnone r (List.mem_reverse.mp hr)
      simpa using this
    unfold location_duration
    rw [hb]
    rfl

/-- C1 (counterexample): on the ascending-timestamp input
[(t=0, label 0), (t=1000, label 0)] with target label 0, the estimator
returns -1000 < 0, refuting non-negativity for ascending inputs as the
claim states it. -/
theorem C1_ascending_counterexample :
    ([(⟨0, 0⟩ : Reading), ⟨1000, 0⟩].Pairwise fun a b => a.timestamp < b.timestamp) ∧
      location_duration [(⟨0, 0⟩ : Reading), ⟨1000, 0⟩] 0 = -1000 := by
  constructor
  · decide
  · decide

/-- C1 (witness): the amended theorem applied to the concrete descending
input [(t=1000, label 0), (t=0, label 0)]. -/
theorem C1_duration_nonneg_witness :
    ([(⟨1000, 0⟩ : Reading), ⟨0, 0⟩].Pairwise fun a b => b.timestamp ≤ a.timestamp) ∧
      0 ≤ location_duration [(⟨1000, 0⟩ : Reading), ⟨0, 0⟩] 0 :=
  ⟨by decide, (C1_duration_nonneg _ _ (by decide)).1⟩

/-! Lemmas about listModify and the proximity merge (claims C4, C8, C10). -/

theorem listModify_nil {α : Type*} (f : α → α) : ∀ (k : ℕ), listModify f k [] = []
  | 0 => rfl
  | _ + 1 => rfl

theorem listModify_length {α : Type*} (f : α → α) : ∀ (k : ℕ) (l : List α),
    (listModify f k l).length = l.length
  | k, [] => by rw [listModify_nil f k]
  | 0, _ :: _ => rfl
  | n + 1, c :: cs => by
    rw [show listModify f (n + 1) (c :: cs) = c :: listModify f n cs from rfl]
    simp [listModify_length f n cs]

theorem listModify_getD_ne {α : Type*} (f : α → α) :
    ∀ (k j : ℕ) (l : List α) (d : α), k ≠ j → (listModify f k l).getD j d = l.getD j d
  | k, _, [], _, _ => by rw [listModify_nil f k]
  | 0, 0, _ :: _, _, h => absurd rfl h
  | 0, j + 1, c :: cs, d, _ => by
    rw [show listModify f 0 (c :: cs) = f c :: cs from rfl,
      List.getD_cons_succ, List.getD_cons_succ]
  | k + 1, 0, c :: cs, d, _ => rfl
  | k + 1, j + 1, c :: cs, d, h => by
    rw [show listModify f (k + 1) (c :: cs) = c :: listModify f k cs from rfl,
      List.getD_cons_succ, List.getD_cons_succ]
    exact listModify_getD_ne f k j cs d (by omega)

theorem listModify_mem {α : Type*} (f : α → α) :
    ∀ (k : ℕ) (l : List α) (c : α), c ∈ listModify f k l → c ∈ l ∨ ∃ x ∈ l, c = f x
  | k, [], c, h => by
    rw [listModify_nil f k] at h
    exact Or.inl h
  | 0, a :: as, c, h => by
    rw [show listModify f 0 (a :: as) = f a :: as from rfl] at h
    rcases List.mem_cons.mp h with rfl | h
    · exact Or.inr ⟨a, List.mem_cons_self a _, rfl⟩
    · exact Or.inl (List.mem_cons.mpr (Or.inr h))
  | k + 1, a :: as, c, h => by
    rw [show listModify f (k + 1) (a :: as) = a :: listModify f k as from rfl] at h
    rcases List.mem_cons.mp h with rfl | h
    · exact Or.inl (List.mem_cons_self c _)
    · rcases listModify_mem f k as c h with h | ⟨x, hx, hfx⟩
      · exact Or.inl (List.mem_cons.mpr (Or.inr h))
      · exact Or.inr ⟨x, List.mem_cons.mpr (Or.inr hx), hfx⟩

theorem propSum_cons (c : Cluster) (l : List Cluster) :
    propSum (c :: l) = c.proportion + propSum l := by
  simp [propSum]

theorem propSum_listModify (f : Cluster → Cluster) :
    ∀ (k : ℕ) (l : List Cluster), k < l.length →
      propSum (listModify f k l)
        = propSum l - (l.getD k default).proportion + (f (l.getD k default)).proportion
  | _, [], h => by simp at h
  | 0, c :: cs, _ => by
    rw [show listModify f 0 (c :: cs) = f c :: cs from rfl, propSum_cons, propSum_cons,
      List.getD_cons_zero]
    ring
  | k + 1, c :: cs, h => by
    rw [show listModify f (k + 1) (c :: cs) = c :: listModify f k cs from rfl,
      propSum_cons, propSum_cons, List.getD_cons_succ,
      propSum_listModify f k cs (by simpa using h)]
    ring

theorem innerStep_length (dist : ℚ × ℚ → ℚ × ℚ → ℚ) (M : ℚ) (big : ℚ × ℚ) (i : ℕ)
    (cs : List Cluster) (j : ℕ) : (innerStep dist M big i cs j).length = cs.length := by
  unfold innerStep
  split
  · rfl
  · split
    · rw [listModify_length, listModify_length]
    · rfl

theorem innerStep_propSum (dist : ℚ × ℚ → ℚ × ℚ → ℚ) (M : ℚ) (big : ℚ × ℚ) (i : ℕ)
    (cs : List Cluster) (j : ℕ) (hi : i < cs.length) (hij : i ≠ j) :
    propSum (innerStep dist M big i cs j) = propSum cs := by
  unfold innerStep
  split
  · rfl
  next cj hj =>
    split
    · have hjl : j < cs.length := (List.get?_eq_some.mp hj).1
      have hjD : cs.getD j default = cj := by
        obtain ⟨hh, hg⟩ := List.get?_eq_some.mp hj
        rw [getD_eq_getElem' _ _ _ hh, ← hg, List.get_eq_getElem]
      have hmidlen : (listModify (fun c =>
          { c with proportion := c.proportion + cj.proportion,
                   duration := c.duration + cj.duration }) i cs).length = cs.length :=
        listModify_length _ _ _
      rw [propSum_listModify _ j _ (by rw [hmidlen]; exact hjl),
        propSum_listModify _ i cs hi,
        listModify_getD_ne _ i j cs default hij, hjD]
      simp only []
      ring
    · rfl

theorem foldl_innerStep_propSum (dist : ℚ × ℚ → ℚ × ℚ → ℚ) (M : ℚ) (big : ℚ × ℚ) (i : ℕ) :
    ∀ (js : List ℕ) (cs : List Cluster), i < cs.length → (∀ j ∈ js, i ≠ j) →
      propSum (js.foldl (innerStep dist M big i) cs) = propSum cs ∧
        (js.foldl (innerStep dist M big i) cs).length = cs.length
  | [], _, _, _ => ⟨rfl, rfl⟩
  | j :: js, cs, hi, hjs => by
    rw [List.foldl_cons]
    have hlen := innerStep_length dist M big i cs j
    have hsum := innerStep_propSum dist M big i cs j hi (hjs j (List.mem_cons_self j js))
    obtain ⟨h1, h2⟩ := foldl_innerStep_propSum dist M big i js (innerStep dist M big i cs j)
      (hlen ▸ hi) (fun x hx => hjs x (List.mem_cons.mpr (Or.inr hx)))
    exact ⟨h1.trans hsum, h2.trans hlen⟩

theorem outerStep_propSum (dist : ℚ × ℚ → ℚ × ℚ → ℚ) (M : ℚ) (n : ℕ)
    (cs : List Cluster) (i : ℕ) :
    propSum (outerStep dist M n cs i) = propSum cs ∧
      (outerStep dist M n cs i).length = cs.length := by
  unfold outerStep
  split
  · exact ⟨rfl, rfl⟩
  next ci hi =>
    split
    · have hilen : i < cs.length := (List.get?_eq_some.mp hi).1
      refine foldl_innerStep_propSum dist M (ci.latitude, ci.longitude) i _ cs hilen ?_
      intro j hj
      obtain ⟨t, ht, rfl⟩ := List.mem_range'.mp hj
      omega
    · exact ⟨rfl, rfl⟩

theorem foldl_outerStep_propSum (dist : ℚ × ℚ → ℚ × ℚ → ℚ) (M : ℚ) (n : ℕ) :
    ∀ (idxs : List ℕ) (cs : List Cluster),
      propSum (idxs.foldl (outerStep dist M n) cs) = propSum cs
  | [], _ => rfl
  | i :: idxs, cs => by
    rw [List.foldl_cons, foldl_outerStep_propSum dist M n idxs _,
      (outerStep_propSum dist M n cs i).1]

theorem innerStep_nonneg (dist : ℚ × ℚ → ℚ × ℚ → ℚ) (M : ℚ) (big : ℚ × ℚ) (i : ℕ)
    (cs : List Cluster) (j : ℕ) (h : ∀ c ∈ cs, 0 ≤ c.proportion) :
    ∀ c ∈ innerStep dist M big i cs j, 0 ≤ c.proportion := by
  unfold innerStep
  split
  · exact h
  next cj hj =>
    split
    · intro c hc
      rcases listModify_mem _ _ _ _ hc with hc1 | ⟨x, hx, hfx⟩
      · rcases listModify_mem _ _ _ _ hc1 with hc2 | ⟨y, hy, hfy⟩
        · exact h c hc2
        · have hcj : cj ∈ cs := List.get?_mem hj
          rw [hfy]
          exact add_nonneg (h y hy) (h cj hcj)
      · rw [hfx]
    · exact h

theorem foldl_innerStep_nonneg (dist : ℚ × ℚ → ℚ × ℚ → ℚ) (M : ℚ) (big : ℚ × ℚ) (i : ℕ) :
    ∀ (js : List ℕ) (cs : List Cluster), (∀ c ∈ cs, 0 ≤ c.proportion) →
      ∀ c ∈ js.foldl (innerStep dist M big i) cs, 0 ≤ c.proportion
  | [], _, h => h
  | j :: js, cs, h => by
    rw [List.foldl_cons]
    exact foldl_innerStep_nonneg dist M big i js _ (innerStep_nonneg dist M big i cs j h)

theorem outerStep_nonneg (dist : ℚ × ℚ → ℚ × ℚ → ℚ) (M : ℚ) (n : ℕ)
    (cs : List Cluster) (i : ℕ) (h : ∀ c ∈ cs, 0 ≤ c.proportion) :
    ∀ c ∈ outerStep dist M n cs i, 0 ≤ c.proportion := by
  unfold outerStep
  split
  · exact h
  next ci hi =>
    split
    · exact foldl_innerStep_nonneg dist M (ci.latitude, ci.longitude) i _ cs h
    · exact h

theorem foldl_outerStep_nonneg (dist : ℚ × ℚ → ℚ × ℚ → ℚ) (M : ℚ) (n : ℕ) :
    ∀ (idxs : List ℕ) (cs : List Cluster), (∀ c ∈ cs, 0 ≤ c.proportion) →
      ∀ c ∈ idxs.foldl (outerStep dist M n) cs, 0 ≤ c.proportion
  | [], _, h => h
  | i :: idxs, cs, h => by
    rw [List.foldl_cons]
    exact foldl_outerStep_nonneg dist M n idxs _ (outerStep_nonneg dist M n cs i h)

theorem propSum_filter_pos : ∀ (l : List Cluster), (∀ c ∈ l, 0 ≤ c.proportion) →
    propSum (l.filter (fun c => c.proportion > 0)) = propSum l
  | [], _ => rfl
  | c :: cs, h => by
    rw [List.filter_cons]
    have hc0 : 0 ≤ c.proportion := h c (List.mem_cons_self c cs)
    have hrec := propSum_filter_pos cs (fun x hx => h x (List.mem_cons.mpr (Or.inr hx)))
    by_cases hc : c.proportion > 0
    · rw [if_pos (by simpa using hc), propSum_cons, propSum_cons, hrec]
    · rw [if_neg (by simpa using hc), hrec, propSum_cons]
      have hz : c.proportion = 0 := le_antisymm (not_lt.mp hc) hc0
      rw [hz]
      ring

theorem propSum_reRank : ∀ (k : ℕ) (l : List Cluster), propSum (reRank k l) = propSum l
  | _, [] => rfl
  | k, c :: cs => by
    rw [show reRank k (c :: cs) = { c with rank := k } :: reRank (k + 1) cs from rfl,
      propSum_cons, propSum_cons, propSum_reRank (k + 1) cs]

/-- C4: the Proximity Merge conserves total proportion mass: for any
distance function, any merge distance and any input of location records
with non-negative proportions (the data model gives proportion in [0,1]),
the sum of proportion over the output of remove_clusters equals the sum
over the input. -/
theorem C4_merge_conservation (dist : ℚ × ℚ → ℚ × ℚ → ℚ) (clusters : List Cluster)
    (MAX_DIST : ℚ) (h : ∀ c ∈ clusters, 0 ≤ c.proportion) :
    propSum (remove_clusters dist clusters MAX_DIST) = propSum clusters := by
  unfold remove_clusters
  rw [propSum_reRank,
    propSum_filter_pos _ (foldl_outerStep_nonneg dist MAX_DIST clusters.length _ clusters h)]
  exact foldl_outerStep_propSum dist MAX_DIST clusters.length _ clusters

/-- C4 (witness): conservation at a concrete two-record input whose records
merge under a distance function that makes everything close. -/
theorem C4_merge_conservation_witness :
    (∀ c ∈ [(⟨0, 0, 1, 5, 0⟩ : Cluster), ⟨1, 1, 1, 6, 1⟩], 0 ≤ c.proportion) ∧
      propSum (remove_clusters (fun _ _ => 0) [(⟨0, 0, 1, 5, 0⟩ : Cluster), ⟨1, 1, 1, 6, 1⟩] 10)
        = propSum [(⟨0, 0, 1, 5, 0⟩ : Cluster), ⟨1, 1, 1, 6, 1⟩] :=
  ⟨by decide, C4_merge_conservation _ _ _ (by decide)⟩

theorem listModify_map_eq {α β : Type*} (f : α → α) (g : α → β) (hg : ∀ x, g (f x) = g x) :
    ∀ (k : ℕ) (l : List α), (listModify f k l).map g = l.map g
  | k, [] => by rw [listModify_nil f k]
  | 0, c :: cs => by
    rw [show listModify f 0 (c :: cs) = f c :: cs from rfl, List.map_cons, List.map_cons, hg]
  | k + 1, c :: cs => by
    rw [show listModify f (k + 1) (c :: cs) = c :: listModify f k cs from rfl,
      List.map_cons, List.map_cons, listModify_map_eq f g hg k cs]

theorem innerStep_map_coords (dist : ℚ × ℚ → ℚ × ℚ → ℚ) (M : ℚ) (big : ℚ × ℚ) (i : ℕ)
    (cs : List Cluster) (j : ℕ) :
    (innerStep dist M big i cs j).map coordsOf = cs.map coordsOf := by
  unfold innerStep
  split
  · rfl
  next cj hj =>
    split
    · rw [listModify_map_eq (fun c =>
            ({ c with proportion := 0 } : Cluster)) coordsOf (fun x => rfl) j _,
        listModify_map_eq (fun c =>
            ({ c with proportion := c.proportion + cj.proportion,
                      duration := c.duration + cj.duration } : Cluster)) coordsOf
          (fun x => rfl) i cs]
    · rfl

theorem foldl_innerStep_map_coords (dist : ℚ × ℚ → ℚ × ℚ → ℚ) (M : ℚ) (big : ℚ × ℚ) (i : ℕ) :
    ∀ (js : List ℕ) (cs : List Cluster),
      (js.foldl (innerStep dist M big i) cs).map coordsOf = cs.map coordsOf
  | [], _ => rfl
  | j :: js, cs => by
    rw [List.foldl_cons, foldl_innerStep_map_coords dist M big i js _, innerStep_map_coords]

theorem outerStep_map_coords (dist : ℚ × ℚ → ℚ × ℚ → ℚ) (M : ℚ) (n : ℕ)
    (cs : List Cluster) (i : ℕ) :
    (outerStep dist M n cs i).map coordsOf = cs.map coordsOf := by
  unfold outerStep
  split
  · rfl
  next ci hi =>
    split
    · exact foldl_innerStep_map_coords dist M (ci.latitude, ci.longitude) i _ cs
    · rfl

theorem foldl_outerStep_map_coords (dist : ℚ × ℚ → ℚ × ℚ → ℚ) (M : ℚ) (n : ℕ) :
    ∀ (idxs : List ℕ) (cs : List Cluster),
      (idxs.foldl (outerStep dist M n) cs).map coordsOf = cs.map coordsOf
  | [], _ => rfl
  | i :: idxs, cs => by
    rw [List.foldl_cons, foldl_outerStep_map_coords dist M n idxs _, outerStep_map_coords]

theorem reRank_map_coords : ∀ (k : ℕ) (l : List Cluster),
    (reRank k l).map coordsOf = l.map coordsOf
  | _, [] => rfl
  | k, c :: cs => by
    rw [show reRank k (c :: cs) = { c with rank := k } :: reRank (k + 1) cs from rfl,
      List.map_cons, List.map_cons, reRank_map_coords (k + 1) cs]
    rfl

theorem reRank_length : ∀ (k : ℕ) (l : List Cluster), (reRank k l).length = l.length
  | _, [] => rfl
  | k, c :: cs => by
    rw [show reRank k (c :: cs) = { c with rank := k } :: reRank (k + 1) cs from rfl]
    simp [reRank_length (k + 1) cs]

theorem reRank_map_rank : ∀ (k : ℕ) (l : List Cluster),
    (reRank k l).map Cluster.rank = List.range' k l.length
  | _, [] => rfl
  | k, c :: cs => by
    rw [show reRank k (c :: cs) = { c with rank := k } :: reRank (k + 1) cs from rfl,
      List.map_cons, reRank_map_rank (k + 1) cs]
    rfl

/-- C8: for any distance function, merge distance and input, the Proximity
Merge keeps survivors in their pre-merge relative order (their coordinate
pairs, which the merge never rewrites, form a sublist of the input's
coordinate list) and reassigns their rank fields to the contiguous range
0, 1, 2, ... in that order. -/
theorem C8_rank_contiguous (dist : ℚ × ℚ → ℚ × ℚ → ℚ) (clusters : List Cluster)
    (MAX_DIST : ℚ) (_hne : remove_clusters dist clusters MAX_DIST ≠ []) :
    (remove_clusters dist clusters MAX_DIST).map Cluster.rank
        = List.range (remove_clusters dist clusters MAX_DIST).length ∧
      ((remove_clusters dist clusters MAX_DIST).map coordsOf).Sublist
        (clusters.map coordsOf) := by
  constructor
  · unfold remove_clusters
    rw [reRank_map_rank, reRank_length]
    exact (List.range_eq_range' _).symm
  · unfold remove_clusters
    rw [reRank_map_coords]
    have h1 : ((((List.range (clusters.length - 1)).foldl
          (outerStep dist MAX_DIST clusters.length) clusters).filter
            (fun c => c.proportion > 0)).map coordsOf).Sublist
        (((List.range (clusters.length - 1)).foldl
          (outerStep dist MAX_DIST clusters.length) clusters).map coordsOf) :=
      List.Sublist.map coordsOf (List.filter_sublist _)
    rw [foldl_outerStep_map_coords] at h1
    exact h1

/-- C8 (witness): the theorem applied to a surviving singleton whose stale
rank 7 is reassigned to 0. -/
theorem C8_rank_contiguous_witness :
    remove_clusters (fun _ _ => 0) [(⟨2, 3, 1, 5, 7⟩ : Cluster)] 10 ≠ [] ∧
      (remove_clusters (fun _ _ => 0) [(⟨2, 3, 1, 5, 7⟩ : Cluster)] 10).map Cluster.rank
        = List.range (remove_clusters (fun _ _ => 0) [(⟨2, 3, 1, 5, 7⟩ : Cluster)] 10).length :=
  ⟨by decide, (C8_rank_contiguous _ _ _ (by decide)).1⟩

theorem innerStep_merge (dist : ℚ × ℚ → ℚ × ℚ → ℚ) (M : ℚ) (big : ℚ × ℚ) (i j : ℕ)
    (cs : List Cluster) (cj : Cluster) (hj : cs.get? j = some cj)
    (hd : dist big (cj.latitude, cj.longitude) < M) :
    innerStep dist M big i cs j =
      listModify (fun c => { c with proportion := 0 }) j
        (listModify (fun c =>
          { c with proportion := c.proportion + cj.proportion,
                   duration := c.duration + cj.duration }) i cs) := by
  unfold innerStep
  rw [hj]
  exact if_pos hd

theorem innerStep_skip (dist : ℚ × ℚ → ℚ × ℚ → ℚ) (M : ℚ) (big : ℚ × ℚ) (i j : ℕ)
    (cs : List Cluster) (cj : Cluster) (hj : cs.get? j = some cj)
    (hd : ¬ dist big (cj.latitude, cj.longitude) < M) :
    innerStep dist M big i cs j = cs := by
  unfold innerStep
  rw [hj]
  exact if_neg hd

theorem outerStep_active (dist : ℚ × ℚ → ℚ × ℚ → ℚ) (M : ℚ) (n : ℕ)
    (cs : List Cluster) (i : ℕ) (ci : Cluster) (hi : cs.get? i = some ci)
    (hp : ci.proportion > 0) :
    outerStep dist M n cs i =
      (List.range' (i + 1) (n - (i + 1))).foldl
        (innerStep dist M (ci.latitude, ci.longitude) i) cs := by
  unfold outerStep
  rw [hi]
  exact if_pos hp

/-- C10: in the Proximity Merge, an absorbed location's duration is never
zeroed: with three locations where the first two are far apart, both have
positive proportion, and the third is within the merge distance of both,
the third's duration is added into both survivors while its proportion is
added only into the first (only proportion is cleared on absorption). -/
theorem C10_duration_double_count (dist : ℚ × ℚ → ℚ × ℚ → ℚ) (M : ℚ) (c0 c1 c2 : Cluster)
    (h01 : ¬ dist (c0.latitude, c0.longitude) (c1.latitude, c1.longitude) < M)
    (h02 : dist (c0.latitude, c0.longitude) (c2.latitude, c2.longitude) < M)
    (h12 : dist (c1.latitude, c1.longitude) (c2.latitude, c2.longitude) < M)
    (hp0 : 0 < c0.proportion) (hp1 : 0 < c1.proportion) (hp2 : 0 < c2.proportion) :
    remove_clusters dist [c0, c1, c2] M =
      [{ c0 with proportion := c0.proportion + c2.proportion,
                 duration := c0.duration + c2.duration, rank := 0 },
       { c1 with duration := c1.duration + c2.duration, rank := 1 }] := by
  unfold remove_clusters
  show reRank 0
      ((List.foldl (outerStep dist M 3) [c0, c1, c2] [0, 1]).filter
        (fun c => c.proportion > 0)) = _
  rw [List.foldl_cons, List.foldl_cons, List.foldl_nil]
  rw [outerStep_active dist M 3 [c0, c1, c2] 0 c0 rfl hp0]
  rw [show List.range' (0 + 1) (3 - (0 + 1)) = [1, 2] from rfl]
  rw [List.foldl_cons, List.foldl_cons, List.foldl_nil]
  rw [innerStep_skip dist M (c0.latitude, c0.longitude) 0 1 [c0, c1, c2] c1 rfl h01]
  rw [innerStep_merge dist M (c0.latitude, c0.longitude) 0 2 [c0, c1, c2] c2 rfl h02]
  rw [show listModify (fun c => { c with proportion := 0 }) 2
        (listModify (fun c =>
          { c with proportion := c.proportion + c2.proportion,
                   duration := c.duration + c2.duration }) 0 [c0, c1, c2])
      = [{ c0 with proportion := c0.proportion + c2.proportion,
                   duration := c0.duration + c2.duration }, c1,
          { c2 with proportion := 0 }] from rfl]
  rw [outerStep_active dist M 3
    [{ c0 with proportion := c0.proportion + c2.proportion,
               duration := c0.duration + c2.duration }, c1,
      { c2 with proportion := 0 }] 1 c1 rfl hp1]
  rw [show List.range' (1 + 1) (3 - (1 + 1)) = [2] from rfl]
  rw [List.foldl_cons, List.foldl_nil]
  rw [innerStep_merge dist M (c1.latitude, c1.longitude) 1 2
    [{ c0 with proportion := c0.proportion + c2.proportion,
               duration := c0.duration + c2.duration }, c1,
      { c2 with proportion := 0 }] ({ c2 with proportion := 0 }) rfl h12]
  rw [show listModify (fun c => { c with proportion := 0 }) 2
        (listModify (fun c =>
          { c with proportion := c.proportion + ({ c2 with proportion := 0 } : Cluster).proportion,
                   duration := c.duration + ({ c2 with proportion := 0 } : Cluster).duration }) 1
          [{ c0 with proportion := c0.proportion + c2.proportion,
                     duration := c0.duration + c2.duration }, c1,
            { c2 with proportion := 0 }])
      = [{ c0 with proportion := c0.proportion + c2.proportion,
                   duration := c0.duration + c2.duration },
          { c1 with proportion := c1.proportion + 0,
                    duration := c1.duration + c2.duration },
          { c2 with proportion := 0 }] from rfl]
  have hA : (0 : ℚ) < c0.proportion + c2.proportion := add_pos hp0 hp2
  have hB : (0 : ℚ) < c1.proportion + 0 := by simpa using hp1
  rw [List.filter_cons, List.filter_cons, List.filter_cons, List.filter_nil]
  rw [if_pos (by simpa using hA), if_pos (by simpa using hB), if_neg (by simp)]
  rw [show reRank 0
        [{ c0 with proportion := c0.proportion + c2.proportion,
                   duration := c0.duration + c2.duration },
          { c1 with proportion := c1.proportion + 0,
                    duration := c1.duration + c2.duration }]
      = [{ c0 with proportion := c0.proportion + c2.proportion,
                   duration := c0.duration + c2.duration, rank := 0 },
          { c1 with proportion := c1.proportion + 0,
                    duration := c1.duration + c2.duration, rank := 1 }] from rfl]
  rw [add_zero]

/-- C10 (witness): the double-count at a concrete three-location input with
an explicit distance function: the absorbed record (duration 7) adds its
duration to both survivors (10+7 and 20+7) but its proportion only to the
first. -/
theorem C10_duration_double_count_witness :
    (¬ (fun p q : ℚ × ℚ => if p.1 = 0 ∧ q.1 = 0 then (100 : ℚ) else 0) (0, 0) (0, 1) < 10) ∧
      remove_clusters (fun p q : ℚ × ℚ => if p.1 = 0 ∧ q.1 = 0 then (100 : ℚ) else 0)
          [(⟨0, 0, 1, 10, 0⟩ : Cluster), ⟨0, 1, 1, 20, 1⟩, ⟨5, 0, 1, 7, 2⟩] 10
        = [⟨0, 0, 2, 17, 0⟩, ⟨0, 1, 1, 27, 1⟩] :=
 by
  refine ⟨by decide, ?_⟩
  have h := C10_duration_double_count
    (fun p q : ℚ × ℚ => if p.1 = 0 ∧ q.1 = 0 then (100 : ℚ) else 0) 10
    ⟨0, 0, 1, 10, 0⟩ ⟨0, 1, 1, 20, 1⟩ ⟨5, 0, 1, 7, 2⟩
    (by decide) (by decide) (by decide) (by decide) (by decide) (by decide)
  rw [h]
  simp only [List.cons.injEq, Cluster.mk.injEq]
  norm_num

/-! Lemmas about np.argmin and the reducer snap step (claim C2). -/

theorem getD_map_lt {α β : Type*} (f : α → β) (l : List α) (n : ℕ) (d : β) (d2 : α)
    (h : n < l.length) : (l.map f).getD n d = f (l.getD n d2) := by
  rw [getD_eq_getElem' _ _ _ (by simpa using h), getD_eq_getElem' _ _ _ h, List.getElem_map]

theorem argminAux_le : ∀ (xs : List ℝ) (i : ℕ) (best : ℝ × ℕ),
    (argminAux xs i best).1 ≤ best.1 ∧ ∀ x ∈ xs, (argminAux xs i best).1 ≤ x
  | [], _, best => ⟨le_refl _, fun x hx => absurd hx (List.not_mem_nil x)⟩
  | x :: xs, i, best => by
    rw [show argminAux (x :: xs) i best
        = if x < best.1 then argminAux xs (i + 1) (x, i) else argminAux xs (i + 1) best
      from rfl]
    split
    next h =>
      obtain ⟨h1, h2⟩ := argminAux_le xs (i + 1) (x, i)
      refine ⟨le_trans h1 (le_of_lt h), ?_⟩
      intro y hy
      rcases List.mem_cons.mp hy with rfl | hy
      · exact h1
      · exact h2 y hy
    next h =>
      obtain ⟨h1, h2⟩ := argminAux_le xs (i + 1) best
      refine ⟨h1, ?_⟩
      intro y hy
      rcases List.mem_cons.mp hy with rfl | hy
      · exact le_trans h1 (not_lt.mp h)
      · exact h2 y hy

theorem argminAux_index : ∀ (xs : List ℝ) (i : ℕ) (best : ℝ × ℕ),
    argminAux xs i best = best ∨
      ∃ k, k < xs.length ∧ (argminAux xs i best).2 = i + k ∧
        (argminAux xs i best).1 = xs.getD k 0
  | [], _, _ => Or.inl rfl
  | x :: xs, i, best => by
    rw [show argminAux (x :: xs) i best
        = if x < best.1 then argminAux xs (i + 1) (x, i) else argminAux xs (i + 1) best
      from rfl]
    split
    next h =>
      rcases argminAux_index xs (i + 1) (x, i) with heq | ⟨k, hk, h2, h1⟩
      · right
        refine ⟨0, by simp, by rw [heq]; simp, by rw [heq, List.getD_cons_zero]⟩
      · right
        refine ⟨k + 1, by simpa using hk, by rw [h2]; omega, by rw [h1, List.getD_cons_succ]⟩
    next h =>
      rcases argminAux_index xs (i + 1) best with heq | ⟨k, hk, h2, h1⟩
      · exact Or.inl heq
      · right
        refine ⟨k + 1, by simpa using hk, by rw [h2]; omega, by rw [h1, List.getD_cons_succ]⟩

theorem argmin_spec (l : List ℝ) (hne : l ≠ []) :
    argmin l < l.length ∧ ∀ j, j < l.length → l.getD (argmin l) 0 ≤ l.getD j 0 := by
  cases l with
  | nil => exact absurd rfl hne
  | cons x xs =>
    rw [show argmin (x :: xs) = (argminAux xs 1 (x, 0)).2 from rfl]
    obtain ⟨hle, hall⟩ := argminAux_le xs 1 (x, 0)
    have hval : (x :: xs).getD (argminAux xs 1 (x, 0)).2 0 = (argminAux xs 1 (x, 0)).1 ∧
        (argminAux xs 1 (x, 0)).2 < (x :: xs).length := by
      rcases argminAux_index xs 1 (x, 0) with heq | ⟨k, hk, h2, h1⟩
      · rw [heq]
        exact ⟨List.getD_cons_zero, by simp⟩
      · rw [h2, h1]
        constructor
        · rw [show (1 : ℕ) + k = k + 1 from by omega, List.getD_cons_succ]
        · simp only [List.length_cons]
          omega
    refine ⟨hval.2, ?_⟩
    intro j hj
    rw [hval.1]
    have hmem : (x :: xs).getD j 0 ∈ x :: xs := getD_mem 0 hj
    rcases List.mem_cons.mp hmem with he | hm
    · rw [he]
      exact hle
    · exact hall _ hm

theorem npMean_single (x : ℝ) : npMean [x] = x := by
  simp [npMean]

theorem euclid_zero_lng (a b : ℝ) : euclid (a, 0) (b, 0) = 110.25 * |a - b| := by
  simp [euclid, Real.sqrt_sq_eq_abs]

theorem euclid_example : euclid (0, 0) (1 / 100, 0) = 441 / 400 := by
  rw [euclid_zero_lng, zero_sub, abs_neg, abs_of_nonneg (by norm_num : (0 : ℝ) ≤ 1 / 100)]
  norm_num

/-- C2 (amended): processing a genuine cluster while summary points exist
finds the summary point nearest to the centroid by the planar approximation
and merges exactly when euclid(nearest, centroid) < 20 in euclid's native
kilometer unit (that is, below 20 kilometers = 20000 meters, not 20
meters); a merge increments that point's count by the cluster size and
leaves every coordinate unchanged, and otherwise the centroid with the
cluster size is appended as a new point. -/
theorem C2_snap_threshold (reduced newReduced dbPoints : List SummaryPoint)
    (db_lats db_longs : List ℝ) (hne : reduced ≠ [])
    (c : ℝ × ℝ) (hc : c = (npMean db_lats, npMean db_longs))
    (i : ℕ) (hi : i = nearestIdx reduced c) :
    (∀ j, j < reduced.length →
        euclid ((reduced.getD i default).latitude, (reduced.getD i default).longitude) c
          ≤ euclid ((reduced.getD j default).latitude, (reduced.getD j default).longitude) c) ∧
      (euclid ((reduced.getD i default).latitude, (reduced.getD i default).longitude) c < 20 →
        mergeClusterStep reduced newReduced dbPoints db_lats db_longs
            = (listModify (fun p => { p with count := p.count + db_lats.length }) i newReduced,
              dbPoints) ∧
          (listModify (fun p => { p with count := p.count + db_lats.length }) i newReduced).map
              (fun p => (p.latitude, p.longitude))
            = newReduced.map (fun p => (p.latitude, p.longitude))) ∧
      (¬ euclid ((reduced.getD i default).latitude, (reduced.getD i default).longitude) c < 20 →
        mergeClusterStep reduced newReduced dbPoints db_lats db_longs
          = (newReduced, dbPoints ++ [⟨npMean db_lats, npMean db_longs, db_lats.length⟩])) := by
  subst hc
  subst hi
  have hlen0 : ¬ reduced.length = 0 := by
    simpa [List.length_eq_zero] using hne
  refine ⟨?_, ?_, ?_⟩
  · intro j hj
    have hmapne : reduced.map (fun loc =>
        euclid (loc.latitude, loc.longitude) (npMean db_lats, npMean db_longs)) ≠ [] := by
      simpa using hne
    obtain ⟨hlt, hmin⟩ := argmin_spec _ hmapne
    have hltr : argmin (reduced.map (fun loc =>
        euclid (loc.latitude, loc.longitude) (npMean db_lats, npMean db_longs)))
          < reduced.length := by
      simpa using hlt
    have h := hmin j (by simpa using hj)
    rw [getD_map_lt _ _ _ _ default hj, getD_map_lt _ _ _ _ default hltr] at h
    exact h
  · intro hsnap
    unfold mergeClusterStep
    rw [if_neg hlen0, if_pos hsnap]
    exact ⟨rfl, listModify_map_eq
      (fun p => ({ p with count := p.count + db_lats.length } : SummaryPoint))
      (fun p => (p.latitude, p.longitude)) (fun x => rfl) _ _⟩
  · intro hsnap
    unfold mergeClusterStep
    rw [if_neg hlen0, if_neg hsnap]

/-- C2 (counterexample): a summary point at (0, 0) and a one-point cluster
at (0.01, 0) are 1102.5 planar meters apart (euclid = 1.1025 km), which is
not below 20 meters; the claim then requires a new summary point to be
appended, but the code merges: the count is incremented and nothing is
appended, because the threshold 20 is compared against euclid's kilometer
output. -/
theorem C2_snap_counterexample :
    (20 : ℝ) ≤ 1000 * euclid (0, 0) (1 / 100, 0) ∧
      mergeClusterStep [(⟨0, 0, 1⟩ : SummaryPoint)] [⟨0, 0, 1⟩] [] [1 / 100] [0]
        = ([⟨0, 0, 2⟩], []) := by
  constructor
  · rw [euclid_example]
    norm_num
  · have hcond : euclid
        ((([(⟨0, 0, 1⟩ : SummaryPoint)]).getD
            (nearestIdx [(⟨0, 0, 1⟩ : SummaryPoint)] (npMean [1 / 100], npMean [0]))
            default).latitude,
          (([(⟨0, 0, 1⟩ : SummaryPoint)]).getD
            (nearestIdx [(⟨0, 0, 1⟩ : SummaryPoint)] (npMean [1 / 100], npMean [0]))
            default).longitude)
        (npMean [1 / 100], npMean [0]) < 20 := by
      rw [show nearestIdx [(⟨0, 0, 1⟩ : SummaryPoint)] (npMean [1 / 100], npMean [0]) = 0
          from rfl,
        List.getD_cons_zero]
      rw [show ((⟨0, 0, 1⟩ : SummaryPoint).latitude, (⟨0, 0, 1⟩ : SummaryPoint).longitude)
          = ((0 : ℝ), (0 : ℝ)) from rfl]
      rw [npMean_single, npMean_single, euclid_example]
      norm_num
    unfold mergeClusterStep
    rw [if_neg (by simp), if_pos hcond]
    rw [show listModify (fun p : SummaryPoint => { p with count := p.count + ([(1 : ℝ) / 100]).length })
          (nearestIdx [(⟨0, 0, 1⟩ : SummaryPoint)] (npMean [1 / 100], npMean [0]))
          [(⟨0, 0, 1⟩ : SummaryPoint)]
        = [⟨0, 0, 2⟩] from rfl]

/-- C2 (witness): the amended theorem applied to the concrete merge input
of the counterexample (one summary point, one singleton cluster 1.1025 km
away, so below the 20 km snap threshold). -/
theorem C2_snap_threshold_witness :
    ([(⟨0, 0, 1⟩ : SummaryPoint)] ≠ []) ∧
      mergeClusterStep [(⟨0, 0, 1⟩ : SummaryPoint)] [⟨0, 0, 1⟩] [] [1 / 100] [0]
        = (listModify (fun p => { p with count := p.count + ([(1 : ℝ) / 100]).length })
            (nearestIdx [(⟨0, 0, 1⟩ : SummaryPoint)] (npMean [1 / 100], npMean [0]))
            [⟨0, 0, 1⟩], ([] : List SummaryPoint)) := by
  constructor
  · simp
  · refine ((C2_snap_threshold [⟨0, 0, 1⟩] [⟨0, 0, 1⟩] [] [1 / 100] [0] (by simp)
      (npMean [1 / 100], npMean [0]) rfl _ rfl).2.1 ?_).1
    rw [show nearestIdx [(⟨0, 0, 1⟩ : SummaryPoint)] (npMean [1 / 100], npMean [0]) = 0
        from rfl,
      List.getD_cons_zero]
    rw [show ((⟨0, 0, 1⟩ : SummaryPoint).latitude, (⟨0, 0, 1⟩ : SummaryPoint).longitude)
        = ((0 : ℝ), (0 : ℝ)) from rfl]
    rw [npMean_single, npMean_single, euclid_example]
    norm_num

/-! Lemmas about the kmeans-path skeleton (claims C5, C6, C9). -/

theorem finishPhase_fst {E β : Type} (writes : List ReducedState) (data : List SummaryPoint)
    (gpsFetch : ℤ → Except E (List GpsRow))
    (extract : List SummaryPoint → List GpsRow → List β) (kwStart : ℤ) :
    (finishPhase writes data gpsFetch extract kwStart).1 = writes := by
  unfold finishPhase
  split
  · rfl
  · split <;> rfl

theorem dedupConsec_eq_nil : ∀ (l : List GpsRow), dedupConsec l = [] → l = []
  | [], _ => rfl
  | x :: xs, h => by
    rw [show dedupConsec (x :: xs) = x :: dedupConsecAux x.timestamp xs from rfl] at h
    exact absurd h (List.cons_ne_nil _ _)

theorem kmeansPath_writes {E β : Type} (getAtt : Except E ReducedState)
    (setAtt : ReducedState → Except E Unit)
    (gpsFetch : ℤ → Except E (List GpsRow))
    (chunkStep : List SummaryPoint → List GpsRow → List SummaryPoint)
    (extract : List SummaryPoint → List GpsRow → List β) (kwStart reqEnd : ℤ) :
    (kmeansPath getAtt setAtt gpsFetch chunkStep extract kwStart reqEnd).1 = [] ∨
      ((readAttachment getAtt).end' < reqEnd ∧
        ∃ gpsNew, gpsFetch (readAttachment getAtt).end' = Except.ok gpsNew ∧
          (dedupConsec gpsNew).length ≠ 0 ∧
          setAtt ⟨reqEnd, (chunksOf 30000 (dedupConsec gpsNew)).foldl chunkStep
              (readAttachment getAtt).data⟩ = Except.ok () ∧
          (kmeansPath getAtt setAtt gpsFetch chunkStep extract kwStart reqEnd).1
            = [⟨reqEnd, (chunksOf 30000 (dedupConsec gpsNew)).foldl chunkStep
                (readAttachment getAtt).data⟩]) := by
  unfold kmeansPath
  by_cases hlt : (readAttachment getAtt).end' < reqEnd
  · rw [if_pos hlt]
    cases hfetch : gpsFetch (readAttachment getAtt).end' with
    | error e => exact Or.inl rfl
    | ok gpsNew =>
      by_cases hg : gpsNew.length = 0
      · left
        simp [hg]
      · by_cases hdf : (dedupConsec gpsNew).length = 0
        · left
          simp [hg, hdf]
        · cases hset : setAtt ⟨reqEnd, (chunksOf 30000 (dedupConsec gpsNew)).foldl chunkStep
              (readAttachment getAtt).data⟩ with
          | error e =>
            left
            simp [hg, hdf, hset]
          | ok u =>
            right
            refine ⟨hlt, gpsNew, rfl, hdf, by rw [hset], ?_⟩
            simp [hg, hdf, hset, finishPhase_fst]
  · rw [if_neg hlt, finishPhase_fst]
    exact Or.inl rfl

/-- C6 (amended): provided the attachment read succeeded, the reducer
watermark is monotone: when the persisted watermark already covers the
requested end, no state is written back (the persisted state is left
unchanged); and every state that is written back carries watermark exactly
the requested end, which is at least the old watermark.  The read-success
hypothesis is necessary: the counterexample shows a read-failure invocation
persisting a lower watermark over the stored state. -/
theorem C6_watermark_monotonic {E β : Type} (getAtt : Except E ReducedState)
    (setAtt : ReducedState → Except E Unit)
    (gpsFetch : ℤ → Except E (List GpsRow))
    (chunkStep : List SummaryPoint → List GpsRow → List SummaryPoint)
    (extract : List SummaryPoint → List GpsRow → List β)
    (kwStart reqEnd : ℤ) (s : ReducedState) (hs : getAtt = Except.ok s) :
    (reqEnd ≤ s.end' →
        (kmeansPath getAtt setAtt gpsFetch chunkStep extract kwStart reqEnd).1 = []) ∧
      ∀ st ∈ (kmeansPath getAtt setAtt gpsFetch chunkStep extract kwStart reqEnd).1,
        st.end' = reqEnd ∧ s.end' ≤ st.end' := by
  subst hs
  constructor
  · intro hge
    unfold kmeansPath
    rw [show readAttachment (Except.ok s) = s from rfl, if_neg (by omega), finishPhase_fst]
  · intro st hst
    rcases kmeansPath_writes (Except.ok s) setAtt gpsFetch chunkStep extract kwStart reqEnd
      with h | ⟨hlt, gpsNew, hf, hd, hset, h⟩
    · rw [h] at hst
      exact absurd hst (List.not_mem_nil st)
    · rw [h] at hst
      rw [List.mem_singleton] at hst
      subst hst
      have hlt' : s.end' < reqEnd := hlt
      exact ⟨rfl, le_of_lt hlt'⟩

/-- C6 (counterexample): across two successive reductions of the same
subject the persisted watermark decreases: the first reduction persists
watermark 100; on the second the attachment read of the stored state
fails, the bare except substitutes the default watermark 0, the test
0 < 5 passes, and the call persists watermark 5 < 100 over the stored
state, so the claim quantified over every reducer invocation is false. -/
theorem C6_read_failure_decreases_watermark :
    (@kmeansPath Unit Unit (Except.ok ⟨0, []⟩) (fun _ => Except.ok ())
        (fun _ => Except.ok [⟨1, 0, 0⟩]) (fun acc _ => acc) (fun _ _ => []) 2 100).1
      = [⟨100, []⟩] ∧
      (@kmeansPath Unit Unit (Except.error ()) (fun _ => Except.ok ())
          (fun _ => Except.ok [⟨1, 0, 0⟩]) (fun acc _ => acc) (fun _ _ => []) 2 5).1
        = [⟨5, []⟩] ∧
      (5 : ℤ) < 100 := by
  refine ⟨?_, ?_, by norm_num⟩
  all_goals
    unfold kmeansPath
    norm_num [readAttachment, dedupConsec, dedupConsecAux, chunksOf, finishPhase]

/-- C6 (witness): the amended theorem applied to a concrete invocation
with a successful read of watermark 3 and requested end 5, whose single
write carries watermark 5. -/
theorem C6_watermark_monotonic_witness :
    (⟨5, []⟩ : ReducedState).end' = 5 ∧ (3 : ℤ) ≤ (⟨5, []⟩ : ReducedState).end' :=
  (C6_watermark_monotonic (Except.ok ⟨3, []⟩) (fun _ => Except.ok ())
      (fun _ => Except.ok [⟨1, 0, 0⟩]) (fun acc _ => acc) (fun _ _ => ([] : List Unit))
      2 5 ⟨3, []⟩ rfl).2 ⟨5, []⟩
    (by
      have h : (@kmeansPath Unit Unit (Except.ok ⟨3, []⟩) (fun _ => Except.ok ())
          (fun _ => Except.ok [⟨1, 0, 0⟩]) (fun acc _ => acc) (fun _ _ => ([] : List Unit))
          2 5).1 = [⟨5, []⟩] := by
        unfold kmeansPath
        norm_num [readAttachment, dedupConsec, dedupConsecAux, chunksOf, finishPhase]
      rw [h]
      exact List.mem_singleton.mpr rfl)

/-- C9: the code evaluated at the claimed scenario: if the persisted
watermark is strictly below the requested end and no rows remain after
consecutive-duplicate-timestamp removal, then the incremental fetch was
itself empty (the removal always keeps the first row), and the invocation
raises the pandas KeyError of line 135 — subscripting the column-less
frame built from the empty fetch — before the line-136 `return []` guard
can run; nothing is written and no empty list is returned. -/
theorem C9_empty_increment_raises {E β : Type} (getAtt : Except E ReducedState)
    (setAtt : ReducedState → Except E Unit)
    (gpsFetch : ℤ → Except E (List GpsRow))
    (chunkStep : List SummaryPoint → List GpsRow → List SummaryPoint)
    (extract : List SummaryPoint → List GpsRow → List β)
    (kwStart reqEnd : ℤ) (s : ReducedState) (hs : getAtt = Except.ok s)
    (hlt : s.end' < reqEnd) (gpsNew : List GpsRow)
    (hfetch : gpsFetch s.end' = Except.ok gpsNew)
    (hdedup : dedupConsec gpsNew = []) :
    gpsNew = [] ∧
      kmeansPath getAtt setAtt gpsFetch chunkStep extract kwStart reqEnd
        = ([], Except.error PyError.keyError) := by
  have hnil : gpsNew = [] := dedupConsec_eq_nil gpsNew hdedup
  subst hs
  subst hnil
  refine ⟨rfl, ?_⟩
  unfold kmeansPath
  rw [show readAttachment (Except.ok s) = s from rfl, if_pos hlt, hfetch]
  rfl

/-- C9 (witness): a concrete invocation with watermark 0, requested end 5,
an empty incremental fetch, a nonempty persisted summary, a window fetch
that would return a row, and an extraction that would return output: the
invocation raises KeyError. -/
theorem C9_empty_increment_raises_witness :
    ([] : List GpsRow) = [] ∧
      @kmeansPath Unit Unit (Except.ok ⟨0, [⟨0, 0, 1⟩]⟩) (fun _ => Except.ok ())
          (fun st => if st = 0 then Except.ok [] else Except.ok [⟨3, 0, 0⟩])
          (fun acc _ => acc) (fun _ _ => [()]) 2 5
        = ([], Except.error PyError.keyError) :=
  C9_empty_increment_raises (Except.ok ⟨0, [⟨0, 0, 1⟩]⟩) (fun _ => Except.ok ())
    (fun st => if st = 0 then Except.ok [] else Except.ok [⟨3, 0, 0⟩])
    (fun acc _ => acc) (fun _ _ => [()]) 2 5 ⟨0, [⟨0, 0, 1⟩]⟩ rfl (by norm_num) [] rfl rfl

/-- C5 (counterexample): the attachment-store read fails, yet the failure
is not surfaced to the caller: the bare except substitutes the empty
default state, the invocation returns Except.ok with a result, and it even
writes a fresh reduction state back to the store. -/
theorem C5_read_failure_swallowed :
    @kmeansPath Unit Unit (Except.error ()) (fun _ => Except.ok ())
        (fun _ => Except.ok [⟨1, 0, 0⟩]) (fun acc _ => acc) (fun _ _ => []) 2 5
      = ([⟨5, []⟩], Except.ok []) := by
  unfold kmeansPath
  norm_num [readAttachment, dedupConsec, dedupConsecAux, chunksOf, finishPhase]

/-- C5 (amended): exceptions from the GPS source propagate out of the
reduce phase with no state written, an exception from the attachment-store
write (set_attachment, unguarded at line 177) propagates with no state
persisted, and the reduction state is written at most once per invocation,
only after all chunks have been folded; but an exception from the
attachment-store read does not propagate: the bare except replaces it by
the default empty state and the invocation proceeds. -/
theorem C5_failure_handling {E β : Type} (getAtt : Except E ReducedState)
    (setAtt : ReducedState → Except E Unit)
    (gpsFetch : ℤ → Except E (List GpsRow))
    (chunkStep : List SummaryPoint → List GpsRow → List SummaryPoint)
    (extract : List SummaryPoint → List GpsRow → List β) (kwStart reqEnd : ℤ)
    (s : ReducedState) (hs : getAtt = Except.ok s) :
    (∀ e, kmeansPath (Except.error e) setAtt gpsFetch chunkStep extract kwStart reqEnd
        = kmeansPath (Except.ok (⟨0, []⟩ : ReducedState)) setAtt gpsFetch chunkStep extract
            kwStart reqEnd) ∧
      (∀ e, s.end' < reqEnd → gpsFetch s.end' = Except.error e →
        kmeansPath getAtt setAtt gpsFetch chunkStep extract kwStart reqEnd
          = ([], Except.error (PyError.ext e))) ∧
      (∀ e gpsNew, s.end' < reqEnd → gpsFetch s.end' = Except.ok gpsNew →
        (dedupConsec gpsNew).length ≠ 0 →
        setAtt ⟨reqEnd, (chunksOf 30000 (dedupConsec gpsNew)).foldl chunkStep s.data⟩
            = Except.error e →
        kmeansPath getAtt setAtt gpsFetch chunkStep extract kwStart reqEnd
          = ([], Except.error (PyError.ext e))) ∧
      (kmeansPath getAtt setAtt gpsFetch chunkStep extract kwStart reqEnd).1.length ≤ 1 ∧
      ∀ st ∈ (kmeansPath getAtt setAtt gpsFetch chunkStep extract kwStart reqEnd).1,
        ∃ gpsNew, gpsFetch s.end' = Except.ok gpsNew ∧
          st = ⟨reqEnd, (chunksOf 30000 (dedupConsec gpsNew)).foldl chunkStep s.data⟩ := by
  subst hs
  refine ⟨fun e => rfl, ?_, ?_, ?_, ?_⟩
  · intro e hlt hfe
    unfold kmeansPath
    rw [show readAttachment (Except.ok s) = s from rfl, if_pos hlt, hfe]
  · intro e gpsNew hlt hfe hd hset
    have hg : ¬ gpsNew.length = 0 := by
      intro h0
      rw [List.length_eq_zero] at h0
      subst h0
      exact hd rfl
    unfold kmeansPath
    rw [show readAttachment (Except.ok s) = s from rfl, if_pos hlt, hfe]
    simp [hg, hd, hset]
  · rcases kmeansPath_writes (Except.ok s) setAtt gpsFetch chunkStep extract kwStart reqEnd
      with h | ⟨hlt, gpsNew, hf, hd, hset, h⟩
    · rw [h]
      exact Nat.zero_le 1
    · rw [h]
      exact le_refl 1
  · intro st hst
    rcases kmeansPath_writes (Except.ok s) setAtt gpsFetch chunkStep extract kwStart reqEnd
      with h | ⟨hlt, gpsNew, hf, hd, hset, h⟩
    · rw [h] at hst
      exact absurd hst (List.not_mem_nil st)
    · rw [h] at hst
      rw [List.mem_singleton] at hst
      exact ⟨gpsNew, hf, hst⟩

/-- C5 (witness): the amended theorem applied to a concrete invocation
whose incremental GPS fetch fails: the error propagates and nothing is
written. -/
theorem C5_failure_handling_witness :
    @kmeansPath Unit Unit (Except.ok ⟨0, []⟩) (fun _ => Except.ok ())
        (fun _ => Except.error ()) (fun acc _ => acc) (fun _ _ => []) 2 5
      = ([], Except.error (PyError.ext ())) :=
  ((C5_failure_handling (Except.ok ⟨0, []⟩) (fun _ => Except.ok ())
      (fun _ => Except.error ()) (fun acc _ => acc) (fun _ _ => ([] : List Unit)) 2 5
      ⟨0, []⟩ rfl).2.1) () (by norm_num) rfl

/-- C3: the mode extractor's radius guard is inverted: with two window
readings both assigned to the selected location 0 (so readings ARE assigned
to it and the claim requires the mean-distance radius to be computed), the
radius is absent, because line 296 guards on the rows whose label differs
from idx (`cluster != idx`) instead of the rows assigned to idx, as the
kmeans path (line 229) correctly does. -/
theorem C3_mode_radius_guard_bug :
    mode_radius [(⟨0, 0, 0⟩, 0), (⟨1, 0, 0⟩, 0)] (0, 0) 0 = none ∧
      (([(⟨0, 0, 0⟩, 0), (⟨1, 0, 0⟩, 0)] : List (GpsRow × ℤ)).filter
          (fun r => r.2 == 0)).length ≠ 0 := by
  constructor
  · unfold mode_radius
    rw [if_neg (by decide)]
  · decide

/-- C7: the elbow candidate set `K_clusters = range(1, min(k_max, len(df)))`
stops at min(k_max, pointcount) - 1: at k_max = 10 over an expanded
weighted cloud of 100 points the code fits and scores k = 1..9 only,
excluding k = 10 even though 10 = min(k_max, pointcount - 1), contrary to
the claim and to the docstring calling k_max the maximum number of KMeans
clusters to test. -/
theorem C7_candidate_upper_bound_bug :
    K_clusters 10 (expanded_data [⟨0, 0, 100⟩]) = [1, 2, 3, 4, 5, 6, 7, 8, 9] ∧
      10 ∉ K_clusters 10 (expanded_data [⟨0, 0, 100⟩]) ∧
      10 = min 10 ((expanded_data [⟨0, 0, 100⟩]).length - 1) := by
  have hlen : (expanded_data [(⟨0, 0, 100⟩ : SummaryPoint)]).length = 100 := by
    simp [expanded_data]
  refine ⟨?_, ?_, ?_⟩
  · unfold K_clusters
    rw [hlen]
    decide
  · unfold K_clusters
    rw [hlen]
    decide
  · rw [hlen]
    decide

end SigLoc
